import Mathlib

/-!
# gsend: a shallow embedding of `gsend.go`

`gsend <src> <dest>` reads a YAML configuration from a fixed per-user path,
validates its two positional arguments, prompts for a password and uploads one
file over SFTP.  The program is a straight line of calls into the operating
system and into libraries, so the embedding is explicit state passing:

* the package-level variables of `gsend.go` and the part of the file system
  under the configuration directory form the `State`;
* everything the program obtains from outside (arguments, results of library
  calls) is read from a `World`;
* every call that has an effect is appended to `State.trace` as an `Event`.

Library code that is not part of the repository (`path/filepath`, `os`,
`errors`, `log`) is modelled from its documented behaviour on Unix.
-/

namespace Gsend

/-! ## Errors -/

/-- Error values.  The first four are the sentinels declared in `gsend.go`,
the next three are sentinels of package `os`, `other` stands for any other
library error, and `join1`/`join2` are the values `errors.Join` builds from one
or two non-nil errors. -/
inductive Err where
  | ErrConfigNotFound
  | ErrSrcNotFound
  | ErrDestNotFound
  | ErrInvalidUsage
  | ErrNotExist
  | ErrPermission
  | ErrInvalid
  | other (msg : String)
  | join1 (a : Err)
  | join2 (a b : Err)
  deriving DecidableEq, Repr

/-- Go `errors.Is` on a non-nil error: the error equals the target, or one of
the errors it wraps matches it. -/
def Err.is (err target : Err) : Bool :=
  err == target ||
    match err with
    | .join1 a => a.is target
    | .join2 a b => a.is target || b.is target
    | _ => false

/-- Go `errors.Is(err, target)`; a nil error matches nothing. -/
def errorsIs (err : Option Err) (target : Err) : Bool :=
  match err with
  | none => false
  | some e => e.is target

/-- Go `errors.Join(a, b)`: nil arguments are discarded, and the result is nil
when nothing is left. -/
def errorsJoin (a b : Option Err) : Option Err :=
  match a, b with
  | none, none => none
  | some x, none => some (.join1 x)
  | none, some y => some (.join1 y)
  | some x, some y => some (.join2 x y)

/-! ## `path/filepath` on Unix -/

/-- The elements of a path between separators (`strings.Split(path, "/")`). -/
def splitSep : List Char → List (List Char)
  | [] => [[]]
  | c :: cs =>
    if c = '/' then [] :: splitSep cs
    else
      match splitSep cs with
      | [] => [[c]]
      | e :: es => (c :: e) :: es

/-- Elements joined by single separators. -/
def joinSep : List (List Char) → List Char
  | [] => []
  | [e] => e
  | e :: es => e ++ '/' :: joinSep es

/-- One step of `filepath.Clean` over the elements of a path.  `stack` holds the
elements kept so far, the most recent first.  Empty and `.` elements are
dropped; `..` removes the element before it, is kept in front of a relative
path when there is nothing to remove, and is dropped at the root. -/
def cleanStep (rooted : Bool) (stack : List (List Char)) (e : List Char) :
    List (List Char) :=
  if e = [] ∨ e = ['.'] then stack
  else if e = ['.', '.'] then
    match stack with
    | [] => if rooted then [] else [e]
    | top :: rest => if top = ['.', '.'] then e :: stack else rest
  else e :: stack

/-- The cleaned path spelled out from its elements. -/
def renderPath (rooted : Bool) (elems : List (List Char)) : List Char :=
  if rooted then '/' :: joinSep elems
  else if elems = [] then ['.']
  else joinSep elems

/-- Go `filepath.Clean` on the characters of a path. -/
def cleanChars (path : List Char) : List Char :=
  let rooted := path.head? = some '/'
  renderPath rooted ((splitSep path).foldl (cleanStep rooted) []).reverse

/-- Go `filepath.Base` on the characters of a path: the last element, after
trailing separators are removed; `.` for the empty path and `/` for a path of
separators only. -/
def baseChars (path : List Char) : List Char :=
  if path = [] then ['.']
  else
    let last := ((path.reverse.dropWhile (· = '/')).takeWhile (· ≠ '/')).reverse
    if last = [] then ['/'] else last

/-- Go `filepath.Dir` on the characters of a path: everything up to the last
separator, cleaned. -/
def dirChars (path : List Char) : List Char :=
  cleanChars (path.reverse.dropWhile (· ≠ '/')).reverse

/-- Go `filepath.Clean`. -/
def filepathClean (path : String) : String := ⟨cleanChars path.data⟩

/-- Go `filepath.Base`. -/
def filepathBase (path : String) : String := ⟨baseChars path.data⟩

/-- Go `filepath.Dir`. -/
def filepathDir (path : String) : String := ⟨dirChars path.data⟩

/-- Go `strings.Join(elem, "/")`. -/
def stringsJoinSep : List String → String
  | [] => ""
  | [e] => e
  | e :: es => e ++ "/" ++ stringsJoinSep es

/-- Go `filepath.Join`: empty leading elements are ignored, the rest is joined
with separators and cleaned; the result is empty when every element is. -/
def filepathJoin : List String → String
  | [] => ""
  | e :: es => if e ≠ "" then filepathClean (stringsJoinSep (e :: es)) else filepathJoin es

/-! ## Data model -/

/-- Go `Location`: a named remote endpoint. -/
structure Location where
  Path : String := ""
  Host : String := ""
  Port : Int := 0
  deriving DecidableEq, Repr

/-- Go `Config`.  The Go map `Locations` is an association list that is looked
up by key; a nil map and an empty map are both `[]`. -/
structure Config where
  Username : String := ""
  Locations : List (String × Location) := []
  deriving DecidableEq, Repr

/-- Go `const configFileName`. -/
def configFileName : String := "gsend.yaml"

/-- Go `size = 1 << 15`, the maximum SFTP packet size. -/
def size : Nat := 1 <<< 15

/-- Go `syscall.O_RDWR`, the open(2) flag, whose value is 2 on every Unix. -/
def O_RDWR : Nat := 0x2

/-- An entry of `ssh.ClientConfig.Auth`. -/
inductive AuthMethod where
  | PublicKeysCallback
  | Password (secret : String)
  deriving DecidableEq, Repr

/-- The resources the program holds and may close. -/
inductive Resource where
  | configFile
  | yamlEncoder
  | conn
  | sftpClient
  | remoteFile
  | localFile
  deriving DecidableEq, Repr

/-- A call with an effect outside the program, in the order the calls are made. -/
inductive Event where
  | readFile (path : String)
  | mkdirAll (path : String) (perm : Nat)
  | create (path : String)
  | encode (c : Config)
  | stat (path : String)
  | openFile (path : String)
  | argsLen
  | argsIndex (i : Nat)
  | lookup (name : String)
  | println (line : String)
  | log (line : String)
  | readPassword
  | netDial (network address : String)
  | sshDial (address user : String) (auths : List AuthMethod)
  | sftpNewClient (maxPacket : Nat)
  | sftpCreate (path : String)
  | copy (fromOpenFile : Bool)
  | close (r : Resource)
  | fatal (what : String) (err : Err)
  | exit (code : Nat)
  deriving DecidableEq, Repr

/-- File I/O: a file or directory is read, inspected, created or written. -/
def Event.isFileOp : Event → Bool
  | .readFile _ | .mkdirAll _ _ | .create _ | .encode _ | .stat _ | .openFile _ => true
  | _ => false

/-- Network I/O: a socket is dialled or the connection is used. -/
def Event.isNetwork : Event → Bool
  | .netDial _ _ | .sshDial _ _ _ | .sftpNewClient _ | .sftpCreate _ | .copy _ => true
  | _ => false

/-- The password prompt: the line printed for it, or the terminal read. -/
def Event.isPrompt : Event → Bool
  | .println line => line == "enter password"
  | .readPassword => true
  | _ => false

/-- An argument is inspected: `len(os.Args)` or `os.Args[i]`. -/
def Event.isArgs : Event → Bool
  | .argsLen | .argsIndex _ => true
  | _ => false

/-- A resource is released. -/
def Event.isClose : Event → Bool
  | .close _ => true
  | _ => false

/-! ## The file system under the configuration directory

`cfgFile` is `<UserConfigDir>/gsend/gsend.yaml`.  The model keeps the three
nodes on that path: the user's configuration directory (which exists), the
directory `gsend` in it and the file in that.  All three belong to the user who
runs the program, so access is decided by the owner bits of the permission
mode, and not at all for a privileged process. -/

/-- The directory `filepath.Dir(cfgFile)`: its permission bits, and the
permission bits and content of `cfgFile` in it, `none` when the file is absent. -/
structure AppDir where
  mode : Nat
  cfgFile : Option (Nat × String) := none
  deriving DecidableEq, Repr

/-- The state of the configuration path. -/
structure FS where
  /-- the process bypasses permission checks (root) -/
  privileged : Bool := false
  /-- the process's file mode creation mask -/
  umask : Nat := 0o022
  /-- permission bits of `os.UserConfigDir()` -/
  cfgDirMode : Nat := 0o755
  /-- the directory `filepath.Dir(cfgFile)`, `none` when it is absent -/
  appDir : Option AppDir := none
  deriving DecidableEq, Repr

/-- Owner read bit. -/
def S_IRUSR : Nat := 0o400
/-- Owner write bit. -/
def S_IWUSR : Nat := 0o200
/-- Owner search (execute) bit. -/
def S_IXUSR : Nat := 0o100

/-- The process may use a node of mode `mode` for the access `bit`. -/
def FS.may (fs : FS) (mode bit : Nat) : Bool :=
  fs.privileged || mode &&& bit != 0

/-- The mode mkdir(2) and open(2) give a new node: the permission bits asked
for, without those of the umask. -/
def createMode (perm umask : Nat) : Nat :=
  (perm &&& 0o777) &&& (0o777 ^^^ (umask &&& 0o777))

/-- Go `os.ReadFile(cfgFile)`: the content and a nil error, or no bytes and
the error of the failed open. -/
def FS.ReadFile (fs : FS) : String × Option Err :=
  if !fs.may fs.cfgDirMode S_IXUSR then ("", some .ErrPermission)
  else
    match fs.appDir with
    | none => ("", some .ErrNotExist)
    | some d =>
      if !fs.may d.mode S_IXUSR then ("", some .ErrPermission)
      else
        match d.cfgFile with
        | none => ("", some .ErrNotExist)
        | some (m, content) =>
          if fs.may m S_IRUSR then (content, none) else ("", some .ErrPermission)

/-- Go `os.MkdirAll(filepath.Dir(cfgFile), perm)`: nothing to do when the
directory exists; otherwise it is made in the configuration directory, which
must be writable and searchable, with mode `perm` less the umask. -/
def FS.MkdirAll (fs : FS) (perm : Nat) : Option Err × FS :=
  if !fs.may fs.cfgDirMode S_IXUSR then (some .ErrPermission, fs)
  else
    match fs.appDir with
    | some _ => (none, fs)
    | none =>
      if fs.may fs.cfgDirMode S_IWUSR then
        (none, { fs with appDir := some { mode := createMode perm fs.umask } })
      else (some .ErrPermission, fs)

/-- Go `os.Create(cfgFile)`, that is `OpenFile(cfgFile, O_RDWR|O_CREATE|O_TRUNC,
0666)`: an existing file must be readable and writable and is truncated; a new
file needs write and search permission on its directory. -/
def FS.Create (fs : FS) : Option Err × FS :=
  if !fs.may fs.cfgDirMode S_IXUSR then (some .ErrPermission, fs)
  else
    match fs.appDir with
    | none => (some .ErrNotExist, fs)
    | some d =>
      if !fs.may d.mode S_IXUSR then (some .ErrPermission, fs)
      else
        match d.cfgFile with
        | some (m, _) =>
          if fs.may m S_IRUSR && fs.may m S_IWUSR then
            (none, { fs with appDir := some { d with cfgFile := some (m, "") } })
          else (some .ErrPermission, fs)
        | none =>
          if fs.may d.mode S_IWUSR then
            (none, { fs with
              appDir := some { d with cfgFile := some (createMode 0o666 fs.umask, "") } })
          else (some .ErrPermission, fs)

/-- A write to the open configuration file replaces its (truncated) content. -/
def FS.write (fs : FS) (text : String) : FS :=
  match fs.appDir with
  | some d =>
    match d.cfgFile with
    | some (m, _) => { fs with appDir := some { d with cfgFile := some (m, text) } }
    | none => fs
  | none => fs

/-- The configuration file, when it exists. -/
def FS.cfgFile (fs : FS) : Option (Nat × String) :=
  match fs.appDir with
  | some d => d.cfgFile
  | none => none

/-- The number of regular files on the configuration path. -/
def FS.fileCount (fs : FS) : Nat :=
  match fs.cfgFile with
  | some _ => 1
  | none => 0

/-! ## The world outside the program -/

/-- What a run receives from outside: the arguments, the environment, and the
results of the library calls whose outcome the program does not determine. -/
structure World where
  /-- Go `os.Args`, the program name first -/
  Args : List String
  /-- Go `os.UserConfigDir()` -/
  UserConfigDir : Except Err String
  /-- the configuration path at program start -/
  fs : FS
  /-- Go `yaml.Unmarshal(bytes, &cfg)`: the updated value of `cfg`, or an error -/
  yamlUnmarshal : String → Config → Except Err Config
  /-- the YAML text the encoder produces for a value, or its error -/
  yamlEncode : Config → Except Err String
  /-- the error of `os.Stat(path)` -/
  Stat : String → Option Err
  /-- Go `term.ReadPassword(stdin)` -/
  ReadPassword : Except Err String
  /-- Go `os.Getenv("SSH_AUTH_SOCK")` -/
  SSH_AUTH_SOCK : String
  /-- the error of `net.Dial("unix", address)` -/
  netDialUnix : String → Option Err
  /-- the error of `ssh.Dial("tcp", address, config)` by address, user and methods -/
  sshDial : String → String → List AuthMethod → Option Err
  /-- the error of `sftp.NewClient(conn, sftp.MaxPacket(size))` -/
  sftpNewClient : Nat → Option Err
  /-- the error of `c.Create(path)` on the SFTP client -/
  sftpCreate : String → Option Err
  /-- the error of `os.Open(path)` -/
  Open : String → Option Err
  /-- Go `io.Copy` from an open source file: the bytes written, or an error -/
  Copy : Except Err Nat

/-- The package-level variables of `gsend.go`, the configuration path, and the
effects so far. -/
structure State where
  src : String := ""
  destName : String := ""
  dest : Location := {}
  password : String := ""
  cfgFile : String := ""
  cfg : Config := {}
  fs : FS := {}
  trace : List Event := []
  deriving DecidableEq, Repr

/-- Append an effect to the trace. -/
def State.emit (s : State) (e : Event) : State :=
  { s with trace := s.trace ++ [e] }

/-- Go `log.Println`. -/
def State.logln (s : State) (line : String) : State :=
  s.emit (.log line)

/-- How a call of a function that returns `error` ends: it returns nil, it
returns an error, or it panics. -/
inductive Ret where
  | nil
  | err (e : Err)
  | panic (msg : String)
  deriving DecidableEq, Repr

/-- A Go `error` result as a `Ret`. -/
def Ret.ofError : Option Err → Ret
  | none => .nil
  | some e => .err e

/-- How the process ends: `main` returns (status 0), `log.Fatal*` exits with
status 1 carrying an error, or an unrecovered panic aborts it. -/
inductive Exit where
  | success
  | fatal (err : Err)
  | panic (msg : String)
  deriving DecidableEq, Repr

/-! ## The program -/

/-- Go `writeDefaultConfig`. -/
def writeDefaultConfig (w : World) (s : State) : Option Err × State :=
  let s := s.emit (.mkdirAll (filepathDir s.cfgFile) O_RDWR)
  match s.fs.MkdirAll O_RDWR with
  | (some err, fs) => (some err, { s with fs := fs })
  | (none, fs) =>
    let s := { s with fs := fs }
    let s := s.logln ("writing new config: " ++ s.cfgFile)
    let s := s.emit (.create s.cfgFile)
    match s.fs.Create with
    | (some err, fs) => (some err, { s with fs := fs })
    | (none, fs) =>
      let s := { s with fs := fs }
      -- defer f.Close(); w := yaml.NewEncoder(f); defer w.Close()
      let s := s.emit (.encode s.cfg)
      let (err, s) :=
        match w.yamlEncode s.cfg with
        | .error e => (some e, s)
        | .ok text => (none, { s with fs := s.fs.write text })
      -- the deferred calls run on return, the last one first
      let s := s.emit (.close .yamlEncoder)
      let s := s.emit (.close .configFile)
      (err, s)

/-- Go `printUsage`. -/
def printUsage (s : State) : State :=
  (s.emit (.println "USAGE:")).emit (.println "gsend <src> <dest>")

/-- The panic of an index expression `os.Args[i]` out of range. -/
def indexPanic (i len : Nat) : String :=
  "runtime error: index out of range [" ++ toString i ++ "] with length " ++ toString len

/-- Go `getInfo`. -/
def getInfo (w : World) (s : State) : Ret × State :=
  let s := s.emit (.readFile s.cfgFile)
  let (cfgBytes, err) := s.fs.ReadFile
  if errorsIs err .ErrNotExist then
    let (werr, s) := writeDefaultConfig w s
    (Ret.ofError (errorsJoin (some .ErrConfigNotFound) werr), s)
  else
    let s := s.logln ("found config: " ++ s.cfgFile)
    match w.yamlUnmarshal cfgBytes s.cfg with
    | .error e => (.err e, s)
    | .ok cfg =>
      let s := { s with cfg := cfg }
      let s := s.logln "config parsed"
      let s := s.emit .argsLen
      if w.Args.length < 2 then
        let s := printUsage s
        (.err .ErrInvalidUsage, s)
      else
        let s := s.emit (.argsIndex 1)
        match w.Args[1]? with
        | none => (.panic (indexPanic 1 w.Args.length), s)
        | some arg1 =>
          let s := { s with src := arg1 }
          let s := s.emit (.stat s.src)
          if errorsIs (w.Stat s.src) .ErrNotExist then (.err .ErrSrcNotFound, s)
          else
            let s := s.emit (.argsIndex 2)
            match w.Args[2]? with
            | none => (.panic (indexPanic 2 w.Args.length), s)
            | some arg2 =>
              let s := { s with destName := arg2 }
              let s := s.emit (.lookup s.destName)
              match s.cfg.Locations.lookup s.destName with
              | none => (.err .ErrDestNotFound, { s with dest := {} })
              | some d =>
                let s := { s with dest := d }
                let s := s.emit (.println "enter password")
                let s := s.emit .readPassword
                match w.ReadPassword with
                | .error e => (.err e, s)
                | .ok pwd =>
                  let s := s.logln "got password"
                  (.nil, { s with password := pwd })

/-- Go `init`: the configuration path is fixed under the user's configuration
directory; the program panics when there is none. -/
def init (w : World) (s : State) : Ret × State :=
  match w.UserConfigDir with
  | .error e => (.panic (reprStr e), s)
  | .ok cfgDir =>
    let s := { s with cfgFile := filepathJoin [cfgDir, "gsend", configFileName] }
    (.nil, s.logln ("cfg file " ++ s.cfgFile))

/-- Go `log.Fatal*`: the message is logged and `os.Exit(1)` ends the process at
once; `os.Exit` does not run the deferred calls. -/
def logFatal (what : String) (err : Err) (_deferred : List Resource) (s : State) :
    Exit × State :=
  (.fatal err, (s.emit (.fatal what err)).emit (.exit 1))

/-- The return from `main`: the deferred `Close` calls run, the last one
deferred first. -/
def returnFrom (deferred : List Resource) (s : State) : State :=
  deferred.foldl (fun s r => s.emit (.close r)) s

/-- The `auths` slice built in `main`, from the error of the agent socket dial
and the password. -/
def authMethods (agentErr : Option Err) (password : String) : List AuthMethod :=
  let auths : List AuthMethod := []
  let auths := if agentErr = none then auths ++ [.PublicKeysCallback] else auths
  let auths := if password ≠ "" then auths ++ [.Password password] else auths
  auths

/-- The name `main` passes to `c.Create`:
`filepath.Join(dest.Path, filepath.Base(src))`. -/
def remoteName (dest : Location) (src : String) : String :=
  filepathJoin [dest.Path, filepathBase src]

/-- Go `io.Copy(w, s)` as `main` calls it.  When `os.Open` failed, `s` is a nil
`*os.File`, whose reads fail with `os.ErrInvalid`. -/
def ioCopy (w : World) (opened : Bool) : Except Err Nat :=
  if opened then w.Copy else .error .ErrInvalid

/-- Go `main`. -/
def main (w : World) (s : State) : Exit × State :=
  match getInfo w s with
  | (.panic msg, s) => (.panic msg, s)
  | (.err e, s) => logFatal "" e [] s
  | (.nil, s) =>
    let s := s.emit (.netDial "unix" w.SSH_AUTH_SOCK)
    let auths := authMethods (w.netDialUnix w.SSH_AUTH_SOCK) s.password
    let addr := s.dest.Host ++ ":" ++ toString s.dest.Port
    let s := s.logln "connecting"
    let s := s.emit (.sshDial addr s.cfg.Username auths)
    match w.sshDial addr s.cfg.Username auths with
    | some e => logFatal ("unable to connect to [" ++ addr ++ "]") e [] s
    | none =>
      let deferred := [Resource.conn]
      let s := s.emit (.sftpNewClient size)
      match w.sftpNewClient size with
      | some e => logFatal "unable to start sftp subsytem" e deferred s
      | none =>
        let deferred := Resource.sftpClient :: deferred
        let s := s.logln "connected"
        let s := s.logln "sending file"
        let s := s.emit (.sftpCreate (remoteName s.dest s.src))
        match w.sftpCreate (remoteName s.dest s.src) with
        | some e => logFatal "" e deferred s
        | none =>
          let deferred := Resource.remoteFile :: deferred
          -- s, _ := os.Open(src): the error is discarded
          let s := s.emit (.openFile s.src)
          let opened := (w.Open s.src).isNone
          let s := s.emit (.copy opened)
          match ioCopy w opened with
          | .error e => logFatal "" e deferred s
          | .ok n =>
            let s := s.logln ("wrote " ++ toString n ++ " bytes")
            (.success, returnFrom deferred s)

/-- A run of the program: `init`, then `main`, from the zero values of the
package variables. -/
def program (w : World) : Exit × State :=
  match init w { fs := w.fs } with
  | (.nil, s) => main w s
  | (.err e, s) => (.fatal e, s)
  | (.panic msg, s) => (.panic msg, s)

/-- The events `writeDefaultConfig` may add when `cfg` holds `cfg`. -/
def Event.isConfigWrite (cfg : Config) : Event → Bool
  | .mkdirAll _ perm => perm == O_RDWR
  | .create _ => true
  | .encode c => c == cfg
  | .log _ => true
  | .close r => r == .yamlEncoder || r == .configFile
  | _ => false

/-- The state in which `main` starts: the package variables after `init`. -/
def startState (w : World) : State :=
  (init w { fs := w.fs }).2

/-! ## Concrete inputs -/

/-- A configuration with one destination, `D`. -/
def sampleConfig : Config :=
  { Username := "greg"
    Locations := [("D", { Path := "/remote/dir", Host := "h", Port := 2222 })] }

/-- A configuration path on which the directory and the file exist. -/
def sampleFS : FS :=
  { appDir := some { mode := 0o755, cfgFile := some (0o644, "username: greg") } }

/-- A world in which every step succeeds: `gsend a.txt D` with the
configuration `sampleConfig`, an agent, a password and a reachable server. -/
def sampleWorld : World where
  Args := ["gsend", "a.txt", "D"]
  UserConfigDir := .ok "/home/u/.config"
  fs := sampleFS
  yamlUnmarshal := fun text cfg => if text = "" then .ok cfg else .ok sampleConfig
  yamlEncode := fun _ => .ok "username: \"\"\nlocations: \x7b\x7d\n"
  Stat := fun _ => none
  ReadPassword := .ok "secret"
  SSH_AUTH_SOCK := "/tmp/agent.sock"
  netDialUnix := fun _ => none
  sshDial := fun _ _ _ => none
  sftpNewClient := fun _ => none
  sftpCreate := fun _ => none
  Open := fun _ => none
  Copy := .ok 5

/-- The positional argument `a.txt` alone. -/
def oneArgWorld : World :=
  { sampleWorld with Args := ["gsend", "a.txt"] }

/-- The positional argument `a.txt` alone, and no such file on disk. -/
def oneArgMissingSrcWorld : World :=
  { oneArgWorld with Stat := fun _ => some .ErrNotExist }

/-- No positional argument. -/
def noArgWorld : World :=
  { sampleWorld with Args := ["gsend"] }

/-- A first run: neither the directory `gsend` nor the file exists, and the
user's configuration directory is writable. -/
def firstRunWorld : World :=
  { sampleWorld with fs := {} }

/-- No positional argument, and the directory `gsend` exists without a
configuration file in it. -/
def noArgFreshWorld : World :=
  { noArgWorld with fs := { appDir := some { mode := 0o755 } } }

/-- A first run in a configuration directory the user cannot write to. -/
def readOnlyDirWorld : World :=
  { noArgWorld with fs := { cfgDirMode := 0o555 } }

/-- The directory `gsend` exists without the owner's search bit and holds no
configuration file. -/
def unsearchableDirWorld : World :=
  { noArgWorld with fs := { appDir := some { mode := 0 } } }

/-- The server accepts the connection and refuses the SFTP subsystem. -/
def sftpStartFailsWorld : World :=
  { sampleWorld with sftpNewClient := fun _ => some (.other "subsystem request failed") }

/-- The copy fails after both files are open. -/
def copyFailsWorld : World :=
  { sampleWorld with Copy := .error (.other "connection lost") }

/-- The source file exists and cannot be opened by the user. -/
def unreadableSrcWorld : World :=
  { sampleWorld with Open := fun _ => some .ErrPermission }

/-- The destination `D` is not in the configuration. -/
def unknownDestWorld : World :=
  { sampleWorld with Args := ["gsend", "a.txt", "E"] }

/-- The source file does not exist: `os.Stat` reports `os.ErrNotExist`. -/
def missingSrcWorld : World :=
  { sampleWorld with Stat := fun _ => some .ErrNotExist }

/-- The source is `a.txt/x` where `a.txt` is a regular file.  No such path
exists on disk, and `os.Stat` fails with ENOTDIR ("not a directory"), an error
that does not match `os.ErrNotExist`. -/
def notDirSrcWorld : World :=
  { sampleWorld with
    Args := ["gsend", "a.txt/x", "D"]
    Stat := fun path => if path = "a.txt/x" then some (.other "not a directory") else none }

/-- The first run with a umask that masks nothing. -/
def firstRunOpenUmaskWorld : World :=
  { sampleWorld with fs := { umask := 0 } }

/-- The source is the current directory, which exists. -/
def dotSrcWorld : World :=
  { sampleWorld with Args := ["gsend", ".", "D"] }

/-- The destination path of `D` is written with a trailing separator. -/
def trailingSepWorld : World :=
  { sampleWorld with
    yamlUnmarshal := fun _ _ =>
      .ok { Username := "greg"
            Locations := [("D", { Path := "/remote/dir/", Host := "h", Port := 2222 })] } }

/-! ## Lemmas on the embedding -/

theorem lookup_eq_none_of_not_key (name : String) :
    ∀ (locs : List (String × Location)), name ∉ locs.map Prod.fst → locs.lookup name = none
  | [], _ => rfl
  | (k, v) :: rest, h => by
    have hk : ¬ name = k := fun hEq => h (by simp [hEq])
    have hrest : name ∉ rest.map Prod.fst := fun hIn => h (by simp at hIn ⊢; exact Or.inr hIn)
    have hb : (name == k) = false := by simp [hk]
    simp only [List.lookup, hb]
    exact lookup_eq_none_of_not_key name rest hrest

theorem errorsIs_nil (target : Err) : errorsIs none target = false := rfl

theorem returnFrom_trace (deferred : List Resource) (s : State) :
    (returnFrom deferred s).trace = s.trace ++ deferred.map Event.close := by
  unfold returnFrom
  induction deferred generalizing s with
  | nil => simp
  | cons r rs ih => rw [List.foldl_cons, ih]; simp [State.emit]

theorem writeDefaultConfig_trace (w : World) (s : State) :
    ∃ evs, (writeDefaultConfig w s).2.trace = s.trace ++ evs
      ∧ ∀ e ∈ evs, e.isConfigWrite s.cfg = true := by
  rcases hm : s.fs.MkdirAll O_RDWR with ⟨_ | e, fs1⟩
  · rcases hc : fs1.Create with ⟨_ | e, fs2⟩
    · rcases he : w.yamlEncode s.cfg with e | text
      all_goals
        refine ⟨[.mkdirAll (filepathDir s.cfgFile) O_RDWR,
          .log ("writing new config: " ++ s.cfgFile), .create s.cfgFile, .encode s.cfg,
          .close .yamlEncoder, .close .configFile], ?_, ?_⟩
        · simp [writeDefaultConfig, State.emit, State.logln, hm, hc, he]
        · simp [Event.isConfigWrite]
    · refine ⟨[.mkdirAll (filepathDir s.cfgFile) O_RDWR,
        .log ("writing new config: " ++ s.cfgFile), .create s.cfgFile], ?_, ?_⟩
      · simp [writeDefaultConfig, State.emit, State.logln, hm, hc]
      · simp [Event.isConfigWrite]
  · refine ⟨[.mkdirAll (filepathDir s.cfgFile) O_RDWR], ?_, ?_⟩
    · simp [writeDefaultConfig, State.emit, hm]
    · simp [Event.isConfigWrite]

theorem isConfigWrite_not_network (cfg : Config) (e : Event)
    (h : e.isConfigWrite cfg = true) : e.isNetwork = false := by
  cases e <;> simp_all [Event.isConfigWrite, Event.isNetwork]

theorem getInfo_config_absent (w : World) (s : State)
    (h : errorsIs s.fs.ReadFile.2 .ErrNotExist = true) :
    getInfo w s
      = (Ret.ofError (errorsJoin (some .ErrConfigNotFound)
            (writeDefaultConfig w (s.emit (.readFile s.cfgFile))).1),
          (writeDefaultConfig w (s.emit (.readFile s.cfgFile))).2) := by
  simp [getInfo, State.emit, h]

theorem getInfo_few_args (w : World) (s : State) (hargs : w.Args.length ≤ 2) :
    (getInfo w s).1 ≠ .nil
      ∧ ∃ evs, (getInfo w s).2.trace = s.trace ++ Event.readFile s.cfgFile :: evs
          ∧ ∀ e ∈ evs, e.isNetwork = false := by
  by_cases hne : errorsIs s.fs.ReadFile.2 .ErrNotExist = true
  · rw [getInfo_config_absent w s hne]
    obtain ⟨evs, ht, hev⟩ := writeDefaultConfig_trace w (s.emit (.readFile s.cfgFile))
    refine ⟨?_, evs, ?_, fun e he => isConfigWrite_not_network _ e (hev e he)⟩
    · cases (writeDefaultConfig w (s.emit (.readFile s.cfgFile))).1 <;>
        simp [errorsJoin, Ret.ofError]
    · rw [ht]; simp [State.emit]
  · rcases hu : w.yamlUnmarshal s.fs.ReadFile.1 s.cfg with e | cfg
    · refine ⟨?_, [.log ("found config: " ++ s.cfgFile)], ?_, ?_⟩
      · simp [getInfo, State.emit, State.logln, hne, hu]
      · simp [getInfo, State.emit, State.logln, hne, hu]
      · simp [Event.isNetwork]
    · by_cases hlen : w.Args.length < 2
      · refine ⟨?_, [.log ("found config: " ++ s.cfgFile), .log "config parsed", .argsLen,
          .println "USAGE:", .println "gsend <src> <dest>"], ?_, ?_⟩
        · simp [getInfo, State.emit, State.logln, hne, hu, hlen]
        · simp [getInfo, State.emit, State.logln, printUsage, hne, hu, hlen]
        · simp [Event.isNetwork]
      · obtain ⟨prog, src, hw⟩ : ∃ prog src, w.Args = [prog, src] := by
          match hA : w.Args, hargs, hlen with
          | [a, b], _, _ => exact ⟨a, b, rfl⟩
          | [], _, h => simp at h
          | [_], _, h => simp at h
          | _ :: _ :: _ :: _, h, _ => simp at h
        by_cases hst : errorsIs (w.Stat src) .ErrNotExist = true
        · refine ⟨?_, [.log ("found config: " ++ s.cfgFile), .log "config parsed", .argsLen,
            .argsIndex 1, .stat src], ?_, ?_⟩
          · simp [getInfo, State.emit, State.logln, hne, hu, hw, hst]
          · simp [getInfo, State.emit, State.logln, hne, hu, hw, hst]
          · simp [Event.isNetwork]
        · refine ⟨?_, [.log ("found config: " ++ s.cfgFile), .log "config parsed", .argsLen,
            .argsIndex 1, .stat src, .argsIndex 2], ?_, ?_⟩
          · simp [getInfo, State.emit, State.logln, hne, hu, hw, hst]
          · simp [getInfo, State.emit, State.logln, hne, hu, hw, hst]
          · simp [Event.isNetwork]

/-- The SSH dial of `main` offers exactly the list `authMethods` builds. -/
theorem main_sshDial_auths (w : World) (s s' : State) (h : getInfo w s = (.nil, s')) :
    Event.sshDial (s'.dest.Host ++ ":" ++ toString s'.dest.Port) s'.cfg.Username
        (authMethods (w.netDialUnix w.SSH_AUTH_SOCK) s'.password)
      ∈ (main w s).2.trace := by
  simp only [main, h]
  repeat' split
  all_goals simp [logFatal, State.emit, State.logln, returnFrom_trace]

/-! ### The configuration path -/

theorem FS.cfgFile_none_of_absent (fs : FS)
    (h : errorsIs fs.ReadFile.2 .ErrNotExist = true) : fs.cfgFile = none := by
  unfold FS.ReadFile at h
  unfold FS.cfgFile
  split at h
  · simp [errorsIs, Err.is] at h
  · split at h
    · simp [*]
    · split at h
      · simp [errorsIs, Err.is] at h
      · split at h
        · simp [*]
        · split at h <;> simp [errorsIs, Err.is] at h

theorem FS.MkdirAll_cfgFile (fs : FS) (perm : Nat) (h : fs.cfgFile = none) :
    (fs.MkdirAll perm).2.cfgFile = none ∧ (fs.MkdirAll perm).2.umask = fs.umask := by
  unfold FS.MkdirAll
  repeat' split
  all_goals simp_all [FS.cfgFile]

theorem FS.Create_cfgFile (fs : FS) (h : fs.cfgFile = none) :
    (fs.Create.1 = none → fs.Create.2.cfgFile = some (createMode 0o666 fs.umask, ""))
      ∧ (fs.Create.1 ≠ none → fs.Create.2.cfgFile = none) := by
  unfold FS.Create
  repeat' split
  all_goals simp_all [FS.cfgFile]

theorem FS.write_cfgFile (fs : FS) (m : Nat) (old text : String)
    (h : fs.cfgFile = some (m, old)) : (fs.write text).cfgFile = some (m, text) := by
  unfold FS.write
  unfold FS.cfgFile at h
  repeat' split
  all_goals simp_all [FS.cfgFile]

/-! ### Paths -/

theorem splitSep_ne_nil : ∀ (p : List Char), splitSep p ≠ []
  | [] => by simp [splitSep]
  | c :: cs => by
    unfold splitSep
    split
    · simp
    · split <;> simp

theorem splitSep_append_sep (b : List Char) :
    ∀ (p : List Char), splitSep (p ++ '/' :: b) = splitSep p ++ splitSep b
  | [] => by simp [splitSep]
  | c :: cs => by
    have ih := splitSep_append_sep b cs
    by_cases hc : c = '/'
    · simp [splitSep, hc, ih]
    · rcases hs : splitSep cs with _ | ⟨e, es⟩
      · exact absurd hs (splitSep_ne_nil cs)
      · simp [splitSep, hc, ih, hs]

theorem splitSep_of_no_sep : ∀ (b : List Char), '/' ∉ b → splitSep b = [b]
  | [], _ => rfl
  | c :: cs, h => by
    have hc : ¬ c = '/' := fun hEq => h (by simp [hEq])
    have hcs : '/' ∉ cs := fun hIn => h (by simp [hIn])
    simp [splitSep, hc, splitSep_of_no_sep cs hcs]

theorem joinSep_append_singleton (b : List Char) :
    ∀ (elems : List (List Char)), elems ≠ [] → joinSep (elems ++ [b]) = joinSep elems ++ '/' :: b
  | [], h => absurd rfl h
  | [e], _ => by simp [joinSep]
  | e :: e2 :: es, _ => by
    have ih := joinSep_append_singleton b (e2 :: es) (by simp)
    simp only [List.cons_append] at ih ⊢
    simp [joinSep, ih]

theorem cleanStep_ordinary (rooted : Bool) (stack : List (List Char)) (b : List Char)
    (hne : b ≠ []) (hb1 : b ≠ ['.']) (hb2 : b ≠ ['.', '.']) :
    cleanStep rooted stack b = b :: stack := by
  simp [cleanStep, hne, hb1, hb2]

theorem renderPath_append_elem (rooted : Bool) (elems : List (List Char)) (b : List Char)
    (h : elems ≠ []) :
    renderPath rooted (elems ++ [b]) = renderPath rooted elems ++ '/' :: b := by
  unfold renderPath
  rw [joinSep_append_singleton b elems h]
  cases rooted <;> simp [h]

theorem cleanChars_append_elem (p b : List Char)
    (hclean : cleanChars p = p) (hroot : p ≠ ['/']) (hdot : p ≠ ['.'])
    (hsep : '/' ∉ b) (hne : b ≠ []) (hb1 : b ≠ ['.']) (hb2 : b ≠ ['.', '.']) :
    cleanChars (p ++ '/' :: b) = p ++ '/' :: b := by
  have hp : p ≠ [] := by
    intro h
    rw [h] at hclean
    simp [cleanChars, splitSep, cleanStep, renderPath] at hclean
  have hhead : (p ++ '/' :: b).head? = p.head? := by
    cases p with
    | nil => exact absurd rfl hp
    | cons c cs => rfl
  have hc : renderPath (decide (p.head? = some '/'))
      ((splitSep p).foldl (cleanStep (decide (p.head? = some '/'))) []).reverse = p := hclean
  show renderPath (decide ((p ++ '/' :: b).head? = some '/'))
      ((splitSep (p ++ '/' :: b)).foldl
        (cleanStep (decide ((p ++ '/' :: b).head? = some '/'))) []).reverse = _
  rw [hhead, splitSep_append_sep, splitSep_of_no_sep b hsep, List.foldl_append]
  simp only [List.foldl_cons, List.foldl_nil]
  rw [cleanStep_ordinary _ _ b hne hb1 hb2, List.reverse_cons]
  have hst : ((splitSep p).foldl (cleanStep (decide (p.head? = some '/'))) []).reverse ≠ [] := by
    intro h
    rw [h] at hc
    unfold renderPath at hc
    split at hc
    · exact hroot (by simpa [joinSep] using hc.symm)
    · exact hdot (by simpa using hc.symm)
  rw [renderPath_append_elem _ _ b hst, hc]

theorem baseChars_ordinary (path : List Char) (h : baseChars path ≠ ['/']) :
    '/' ∉ baseChars path ∧ baseChars path ≠ [] := by
  unfold baseChars at h ⊢
  split
  · simp
  · rename_i hp
    simp only [] at h ⊢
    split
    · rename_i hl
      rw [if_neg hp, if_pos hl] at h
      exact absurd rfl h
    · rename_i hl
      refine ⟨?_, hl⟩
      intro hmem
      rw [List.mem_reverse] at hmem
      have := List.mem_takeWhile_imp hmem
      simp at this

theorem data_ne_of_ne (a : String) (cs : List Char) (h : a ≠ ⟨cs⟩) : a.data ≠ cs := by
  intro hEq
  exact h (String.ext hEq)

/-! ## The claims -/


/-- C1: with one positional argument (`os.Args` of length 2) and a
configuration that exists and parses, `getInfo` does not print the usage text
and does not return `ErrInvalidUsage`: when the source exists it goes on to
read `os.Args[2]`, which is absent, and panics; when the source does not exist
it returns `ErrSrcNotFound`. -/
theorem getInfo_one_argument_reads_missing_index :
    (getInfo oneArgWorld (startState oneArgWorld)).1
        = .panic "runtime error: index out of range [2] with length 2"
      ∧ Event.argsIndex 2 ∈ (getInfo oneArgWorld (startState oneArgWorld)).2.trace
      ∧ Event.println "USAGE:" ∉ (getInfo oneArgWorld (startState oneArgWorld)).2.trace
      ∧ (getInfo oneArgMissingSrcWorld (startState oneArgMissingSrcWorld)).1
        = .err .ErrSrcNotFound
      ∧ (getInfo noArgWorld (startState noArgWorld)).1 = .err .ErrInvalidUsage := by
  decide

/-- C3: on a first run (directory and file absent, configuration directory
writable, unprivileged user) `writeDefaultConfig` passes `syscall.O_RDWR`, the
mode 0002, to `os.MkdirAll`.  That mode has neither the owner's write bit nor
the owner's search bit, so the new directory cannot hold a new file: the call
fails with a permission error and the configuration file does not exist
afterwards. -/
theorem writeDefaultConfig_directory_mode_unusable :
    O_RDWR &&& S_IWUSR = 0 ∧ O_RDWR &&& S_IXUSR = 0
      ∧ Event.mkdirAll "/home/u/.config/gsend" 0o002
          ∈ (writeDefaultConfig firstRunWorld (startState firstRunWorld)).2.trace
      ∧ (writeDefaultConfig firstRunWorld (startState firstRunWorld)).1 = some .ErrPermission
      ∧ (writeDefaultConfig firstRunWorld (startState firstRunWorld)).2.fs.appDir
          = some { mode := 0, cfgFile := none }
      ∧ (writeDefaultConfig firstRunWorld (startState firstRunWorld)).2.fs.cfgFile = none
      ∧ (writeDefaultConfig firstRunOpenUmaskWorld (startState firstRunOpenUmaskWorld)).1
          = some .ErrPermission
      ∧ (writeDefaultConfig firstRunOpenUmaskWorld (startState firstRunOpenUmaskWorld)).2.fs.appDir
          = some { mode := 0o002, cfgFile := none } := by
  decide

/-- C4: a fatal error ends the process through `os.Exit`, which does not run
the deferred `Close` calls.  When the SFTP subsystem fails to start after the
connection is made, the connection is not closed; when the copy fails, neither
the remote file, the SFTP client nor the connection is closed.  The run that
succeeds closes the three of them (and never the local file). -/
theorem main_fatal_skips_deferred_close :
    (program sftpStartFailsWorld).1 = .fatal (.other "subsystem request failed")
      ∧ Event.close .conn ∉ (program sftpStartFailsWorld).2.trace
      ∧ (program copyFailsWorld).1 = .fatal (.other "connection lost")
      ∧ (program copyFailsWorld).2.trace.filter Event.isClose = []
      ∧ (program sampleWorld).1 = .success
      ∧ (program sampleWorld).2.trace.filter Event.isClose
          = [.close .remoteFile, .close .sftpClient, .close .conn] := by
  decide

/-- C5: `main` discards the error of `os.Open`.  When the source cannot be
opened the run does not end with the open error: the copy is attempted from the
nil file after the remote file has been created, and the run ends with the
error of the copy, `os.ErrInvalid`. -/
theorem main_open_error_discarded :
    unreadableSrcWorld.Open "a.txt" = some .ErrPermission
      ∧ (program unreadableSrcWorld).1 = .fatal .ErrInvalid
      ∧ (program unreadableSrcWorld).2.trace.filter
            (fun e => e.isNetwork || e == .openFile "a.txt" || e == .exit 1)
          = [.netDial "unix" "/tmp/agent.sock",
             .sshDial "h:2222" "greg" [.PublicKeysCallback, .Password "secret"],
             .sftpNewClient 32768, .sftpCreate "/remote/dir/a.txt",
             .openFile "a.txt", .copy false, .exit 1] := by
  decide

/-- C6 (as stated, refuted): a run without positional arguments does file I/O.
It reads the configuration file before it looks at the arguments, and when the
file is absent it creates and writes it. -/
theorem program_no_arguments_does_file_io :
    (program noArgWorld).1 = .fatal .ErrInvalidUsage
      ∧ (program noArgWorld).2.trace.filter Event.isFileOp
          = [.readFile "/home/u/.config/gsend/gsend.yaml"]
      ∧ noArgFreshWorld.fs.fileCount = 0
      ∧ (program noArgFreshWorld).2.fs.fileCount = 1
      ∧ (program noArgFreshWorld).2.trace.filter Event.isFileOp
          = [.readFile "/home/u/.config/gsend/gsend.yaml",
             .mkdirAll "/home/u/.config/gsend" O_RDWR,
             .create "/home/u/.config/gsend/gsend.yaml",
             .encode {}] := by
  decide

/-- C6 (amended): on every run with fewer than two positional arguments
(`os.Args` of length at most 2) the program fails, and it does no network I/O
before it fails; it does do file I/O, because once the configuration path is
known the configuration file is read before the arguments are looked at. -/
theorem program_few_arguments_no_network (w : World) (hargs : w.Args.length ≤ 2) :
    (program w).1 ≠ .success
      ∧ (∀ e ∈ (program w).2.trace, e.isNetwork = false)
      ∧ (∀ dir, w.UserConfigDir = .ok dir →
          Event.readFile (filepathJoin [dir, "gsend", configFileName])
            ∈ (program w).2.trace) := by
  rcases hd : w.UserConfigDir with e | dir
  · simp [program, init, hd]
  · obtain ⟨hret, evs, ht, hev⟩ := getInfo_few_args w
      (({ fs := w.fs, cfgFile := filepathJoin [dir, "gsend", configFileName] } : State).logln
        ("cfg file " ++ filepathJoin [dir, "gsend", configFileName])) hargs
    rcases hg : getInfo w
      (({ fs := w.fs, cfgFile := filepathJoin [dir, "gsend", configFileName] } : State).logln
        ("cfg file " ++ filepathJoin [dir, "gsend", configFileName])) with ⟨r, s2⟩
    rw [hg] at hret ht
    simp only [State.logln, State.emit] at ht
    have hmem : ∀ e ∈ s2.trace, e.isNetwork = false := by
      intro e he
      rw [ht] at he
      simp only [List.nil_append, List.mem_append, List.mem_cons, List.mem_singleton,
        List.not_mem_nil, or_false] at he
      rcases he with rfl | rfl | he
      · rfl
      · rfl
      · exact hev e he
    cases r with
    | nil => exact absurd rfl hret
    | err e =>
      refine ⟨by simp [program, init, hd, main, hg, logFatal], ?_, ?_⟩
      · intro ev hev2
        simp only [program, init, hd, main, hg, logFatal, State.emit, List.mem_append,
          List.mem_singleton] at hev2
        rcases hev2 with (hev2 | rfl) | rfl
        · exact hmem ev hev2
        · rfl
        · rfl
      · intro dir2 hdir
        cases hdir
        simp [program, init, hd, main, hg, logFatal, State.emit, ht]
    | panic msg =>
      refine ⟨by simp [program, init, hd, main, hg], ?_, ?_⟩
      · intro ev hev2
        simp only [program, init, hd, main, hg] at hev2
        exact hmem ev hev2
      · intro dir2 hdir
        cases hdir
        simp [program, init, hd, main, hg, ht]

/-- Witness of C6 (amended), at the run with the one argument `a.txt`. -/
theorem program_few_arguments_no_network_witness :
    (program oneArgWorld).1 ≠ .success
      ∧ (∀ e ∈ (program oneArgWorld).2.trace, e.isNetwork = false)
      ∧ (∀ dir, oneArgWorld.UserConfigDir = .ok dir →
          Event.readFile (filepathJoin [dir, "gsend", configFileName])
            ∈ (program oneArgWorld).2.trace) :=
  program_few_arguments_no_network oneArgWorld (by decide)

/-- C7: when the configuration is read and parsed, the source exists and the
destination name is not a key of the configuration's locations, `getInfo`
returns `ErrDestNotFound`, and `main` ends fatally with that error without
printing the password prompt, reading the terminal, dialling the agent socket
or dialling the server. -/
theorem getInfo_dest_not_found (w : World) (s : State) (prog src destName bytes : String)
    (rest : List String) (cfg : Config)
    (hargs : w.Args = prog :: src :: destName :: rest)
    (hread : s.fs.ReadFile = (bytes, none))
    (hparse : w.yamlUnmarshal bytes s.cfg = .ok cfg)
    (hsrc : errorsIs (w.Stat src) .ErrNotExist = false)
    (hdest : destName ∉ cfg.Locations.map Prod.fst) :
    (getInfo w s).1 = .err .ErrDestNotFound
      ∧ (main w s).1 = .fatal .ErrDestNotFound
      ∧ ∃ evs, (main w s).2.trace = s.trace ++ evs
          ∧ ∀ e ∈ evs, e.isPrompt = false ∧ e.isNetwork = false := by
  have hlook := lookup_eq_none_of_not_key destName cfg.Locations hdest
  have hg : getInfo w s = (.err .ErrDestNotFound,
      { s with
        src := src, destName := destName, dest := {}, cfg := cfg,
        trace := s.trace ++ [.readFile s.cfgFile, .log ("found config: " ++ s.cfgFile),
          .log "config parsed", .argsLen, .argsIndex 1, .stat src, .argsIndex 2,
          .lookup destName] }) := by
    simp [getInfo, State.emit, State.logln, errorsIs_nil, hargs, hread, hparse, hsrc, hlook]
  refine ⟨by rw [hg], ?_, ?_⟩
  · simp [main, hg, logFatal]
  · refine ⟨[.readFile s.cfgFile, .log ("found config: " ++ s.cfgFile),
        .log "config parsed", .argsLen, .argsIndex 1, .stat src, .argsIndex 2,
        .lookup destName, .fatal "" .ErrDestNotFound, .exit 1], ?_, ?_⟩
    · simp [main, hg, logFatal, State.emit]
    · intro e he
      simp only [List.mem_cons, List.mem_singleton, List.not_mem_nil, or_false] at he
      rcases he with rfl | rfl | rfl | rfl | rfl | rfl | rfl | rfl | rfl | rfl <;>
        simp [Event.isPrompt, Event.isNetwork]

/-- Witness of C7: `gsend a.txt E` with a configuration that only knows `D`. -/
theorem getInfo_dest_not_found_witness :
    (getInfo unknownDestWorld (startState unknownDestWorld)).1 = .err .ErrDestNotFound
      ∧ (main unknownDestWorld (startState unknownDestWorld)).1 = .fatal .ErrDestNotFound
      ∧ ∃ evs, (main unknownDestWorld (startState unknownDestWorld)).2.trace
            = (startState unknownDestWorld).trace ++ evs
          ∧ ∀ e ∈ evs, e.isPrompt = false ∧ e.isNetwork = false :=
  getInfo_dest_not_found unknownDestWorld (startState unknownDestWorld)
    "gsend" "a.txt" "E" "username: greg" [] sampleConfig rfl (by decide) rfl (by decide)
    (by decide)

/-- C8 (as stated, refuted).  `getInfo` reports a missing source only when the
error of `os.Stat` matches `os.ErrNotExist`.  For the source `a.txt/x` below a
regular file `a.txt` the path does not exist, but `os.Stat` fails with ENOTDIR,
which does not match; `getInfo` then reads `os.Args[2]`, looks the destination
up, prints the prompt, reads the terminal and returns nil. -/
theorem getInfo_missing_src_not_reported :
    notDirSrcWorld.Stat "a.txt/x" = some (.other "not a directory")
      ∧ errorsIs (notDirSrcWorld.Stat "a.txt/x") .ErrNotExist = false
      ∧ (getInfo notDirSrcWorld (startState notDirSrcWorld)).1 = .nil
      ∧ (getInfo notDirSrcWorld (startState notDirSrcWorld)).2.password = "secret"
      ∧ (getInfo notDirSrcWorld (startState notDirSrcWorld)).2.trace.filter
            (fun e => e.isPrompt || e.isArgs || e == .stat "a.txt/x" || e == .lookup "D")
          = [.argsLen, .argsIndex 1, .stat "a.txt/x", .argsIndex 2, .lookup "D",
             .println "enter password", .readPassword] := by
  decide

/-- C8 (amended): when the configuration is read and parsed and `os.Stat` of
the first positional argument reports that the path does not exist (its error
matches `os.ErrNotExist`), `getInfo` returns `ErrSrcNotFound` before the
password prompt: nothing is printed for the prompt, the terminal is not read,
`os.Args[2]` is not read and no destination is looked up, so the destination,
its name and the password keep their values. -/
theorem getInfo_src_not_found (w : World) (s : State) (prog src bytes : String)
    (rest : List String) (cfg : Config)
    (hargs : w.Args = prog :: src :: rest)
    (hread : s.fs.ReadFile = (bytes, none))
    (hparse : w.yamlUnmarshal bytes s.cfg = .ok cfg)
    (hsrc : errorsIs (w.Stat src) .ErrNotExist = true) :
    (getInfo w s).1 = .err .ErrSrcNotFound
      ∧ (getInfo w s).2.destName = s.destName
      ∧ (getInfo w s).2.dest = s.dest
      ∧ (getInfo w s).2.password = s.password
      ∧ ∃ evs, (getInfo w s).2.trace = s.trace ++ evs
          ∧ ∀ e ∈ evs, e.isPrompt = false ∧ e ≠ .argsIndex 2 ∧ ∀ name, e ≠ .lookup name := by
  have hg : getInfo w s = (.err .ErrSrcNotFound,
      { s with
        src := src, cfg := cfg,
        trace := s.trace ++ [.readFile s.cfgFile, .log ("found config: " ++ s.cfgFile),
          .log "config parsed", .argsLen, .argsIndex 1, .stat src] }) := by
    simp [getInfo, State.emit, State.logln, errorsIs_nil, hargs, hread, hparse, hsrc]
  rw [hg]
  refine ⟨rfl, rfl, rfl, rfl, _, rfl, ?_⟩
  intro e he
  simp only [List.mem_cons, List.mem_singleton, List.not_mem_nil, or_false] at he
  rcases he with rfl | rfl | rfl | rfl | rfl | rfl <;> simp [Event.isPrompt]

/-- Witness of C8 (amended): `gsend a.txt D` when `os.Stat` reports that
`a.txt` does not exist. -/
theorem getInfo_src_not_found_witness :
    (getInfo missingSrcWorld (startState missingSrcWorld)).1 = .err .ErrSrcNotFound
      ∧ (getInfo missingSrcWorld (startState missingSrcWorld)).2.destName
          = (startState missingSrcWorld).destName
      ∧ (getInfo missingSrcWorld (startState missingSrcWorld)).2.dest
          = (startState missingSrcWorld).dest
      ∧ (getInfo missingSrcWorld (startState missingSrcWorld)).2.password
          = (startState missingSrcWorld).password
      ∧ ∃ evs, (getInfo missingSrcWorld (startState missingSrcWorld)).2.trace
            = (startState missingSrcWorld).trace ++ evs
          ∧ ∀ e ∈ evs, e.isPrompt = false ∧ e ≠ .argsIndex 2 ∧ ∀ name, e ≠ .lookup name :=
  getInfo_src_not_found missingSrcWorld (startState missingSrcWorld)
    "gsend" "a.txt" "username: greg" ["D"] sampleConfig rfl (by decide) rfl (by decide)

/-- C9: the authentication methods `main` builds hold the agent method exactly
when the agent socket could be dialled and the password method (with the
captured password) exactly when the password is not empty; there is no other
entry, so the list has at most two entries, it is empty exactly when the agent
is unreachable and the password is empty, and when both methods are present
the agent method is first. -/
theorem authMethods_spec (agentErr : Option Err) (password : String) :
    (AuthMethod.PublicKeysCallback ∈ authMethods agentErr password ↔ agentErr = none)
      ∧ (∀ p, AuthMethod.Password p ∈ authMethods agentErr password
          ↔ p = password ∧ password ≠ "")
      ∧ (authMethods agentErr password).length ≤ 2
      ∧ (authMethods agentErr password).Nodup
      ∧ (authMethods agentErr password = [] ↔ agentErr ≠ none ∧ password = "")
      ∧ (agentErr = none ∧ password ≠ "" →
          authMethods agentErr password = [.PublicKeysCallback, .Password password]) := by
  unfold authMethods
  by_cases ha : agentErr = none <;> by_cases hp : password = "" <;> simp [ha, hp]

/-- C2 (as stated, refuted).  When the configuration directory is not writable
the configuration file does not exist, `getInfo` reports `ErrConfigNotFound`
joined with the error of `os.MkdirAll`, and no file is created.  When the
directory `gsend` exists and cannot be searched, the configuration file does
not exist either, but `os.ReadFile` fails with a permission error, so `getInfo`
takes the configuration as found, inspects the arguments and returns an error
that does not match `ErrConfigNotFound`. -/
theorem getInfo_missing_config_counterexample :
    readOnlyDirWorld.fs.cfgFile = none
      ∧ (getInfo readOnlyDirWorld (startState readOnlyDirWorld)).1
          = .err (.join2 .ErrConfigNotFound .ErrPermission)
      ∧ (getInfo readOnlyDirWorld (startState readOnlyDirWorld)).2.fs.fileCount = 0
      ∧ unsearchableDirWorld.fs.cfgFile = none
      ∧ unsearchableDirWorld.fs.ReadFile = ("", some .ErrPermission)
      ∧ (getInfo unsearchableDirWorld (startState unsearchableDirWorld)).1
          = .err .ErrInvalidUsage
      ∧ Err.is .ErrInvalidUsage .ErrConfigNotFound = false
      ∧ Event.argsLen ∈ (getInfo unsearchableDirWorld (startState unsearchableDirWorld)).2.trace
      ∧ (getInfo unsearchableDirWorld (startState unsearchableDirWorld)).2.fs.fileCount = 0 := by
  decide

/-- C2 (amended): for every argument vector and every state of the
configuration path in which `os.ReadFile` reports that the configuration file
does not exist, `getInfo`, entered with `cfg` at its zero value, returns an
error that matches `ErrConfigNotFound` whether or not the default is written.
There was no file before; afterwards there is exactly one, the configuration
file, when `os.MkdirAll` and `os.Create` succeed, and none when either fails.
When the write succeeds the file holds the encoding of the default
configuration, and every configuration handed to the encoder is the default
one.  No argument is inspected, no path is checked with `os.Stat` and no
password is prompted for. -/
theorem getInfo_config_not_found (w : World) (s : State)
    (hcfg : s.cfg = {})
    (habsent : errorsIs s.fs.ReadFile.2 .ErrNotExist = true) :
    (∃ e, (getInfo w s).1 = .err e ∧ e.is .ErrConfigNotFound = true)
      ∧ s.fs.fileCount = 0
      ∧ (getInfo w s).2.fs.fileCount
          = (if (s.fs.MkdirAll O_RDWR).1 = none ∧ (s.fs.MkdirAll O_RDWR).2.Create.1 = none
              then 1 else 0)
      ∧ (∀ text, (getInfo w s).1 = .err (.join1 .ErrConfigNotFound) →
          w.yamlEncode {} = .ok text →
          (getInfo w s).2.fs.cfgFile = some (createMode 0o666 s.fs.umask, text))
      ∧ ∃ evs, (getInfo w s).2.trace = s.trace ++ evs
          ∧ ∀ e ∈ evs, e.isArgs = false ∧ e.isPrompt = false ∧ (∀ p, e ≠ .stat p)
              ∧ (∀ c, e = .encode c → c = {}) := by
  have hF := FS.cfgFile_none_of_absent s.fs habsent
  have hM := FS.MkdirAll_cfgFile s.fs O_RDWR hF
  rw [getInfo_config_absent w s habsent]
  rcases hm : s.fs.MkdirAll O_RDWR with ⟨_ | e, fs1⟩
  · rw [hm] at hM
    have hC := FS.Create_cfgFile fs1 hM.1
    rcases hc : fs1.Create with ⟨_ | e, fs2⟩
    · rw [hc] at hC
      have hfile := hC.1 rfl
      rcases he : w.yamlEncode s.cfg with e | text
      · have hw : writeDefaultConfig w (s.emit (.readFile s.cfgFile))
            = (some e, { s with
                fs := fs2
                trace := s.trace ++ [.readFile s.cfgFile,
                  .mkdirAll (filepathDir s.cfgFile) O_RDWR,
                  .log ("writing new config: " ++ s.cfgFile), .create s.cfgFile,
                  .encode s.cfg, .close .yamlEncoder, .close .configFile] }) := by
          simp [writeDefaultConfig, State.emit, State.logln, hm, hc, he]
        rw [hw]
        refine ⟨⟨_, rfl, by simp [Err.is]⟩, by simp [FS.fileCount, hF],
          by simp [FS.fileCount, hfile], ?_, _, rfl, ?_⟩
        · intro text h
          simp [errorsJoin, Ret.ofError] at h
        · simp [Event.isArgs, Event.isPrompt, hcfg]
      · have hw : writeDefaultConfig w (s.emit (.readFile s.cfgFile))
            = (none, { s with
                fs := fs2.write text
                trace := s.trace ++ [.readFile s.cfgFile,
                  .mkdirAll (filepathDir s.cfgFile) O_RDWR,
                  .log ("writing new config: " ++ s.cfgFile), .create s.cfgFile,
                  .encode s.cfg, .close .yamlEncoder, .close .configFile] }) := by
          simp [writeDefaultConfig, State.emit, State.logln, hm, hc, he]
        have hwr := FS.write_cfgFile fs2 _ _ text hfile
        rw [hw]
        refine ⟨⟨_, rfl, by simp [Err.is]⟩, by simp [FS.fileCount, hF],
          by simp [FS.fileCount, hwr], ?_, _, rfl, ?_⟩
        · intro text2 _ h2
          rw [hcfg] at he
          rw [he] at h2
          cases h2
          have hu : fs1.umask = s.fs.umask := hM.2
          simp [hwr, hu]
        · simp [Event.isArgs, Event.isPrompt, hcfg]
    · rw [hc] at hC
      have hfile := hC.2 (by simp)
      have hw : writeDefaultConfig w (s.emit (.readFile s.cfgFile))
          = (some e, { s with
              fs := fs2
              trace := s.trace ++ [.readFile s.cfgFile,
                .mkdirAll (filepathDir s.cfgFile) O_RDWR,
                .log ("writing new config: " ++ s.cfgFile), .create s.cfgFile] }) := by
        simp [writeDefaultConfig, State.emit, State.logln, hm, hc]
      rw [hw]
      refine ⟨⟨_, rfl, by simp [Err.is]⟩, by simp [FS.fileCount, hF],
        by simp [FS.fileCount, hfile], ?_, _, rfl, ?_⟩
      · intro text h
        simp [errorsJoin, Ret.ofError] at h
      · simp [Event.isArgs, Event.isPrompt]
  · rw [hm] at hM
    have hw : writeDefaultConfig w (s.emit (.readFile s.cfgFile))
        = (some e, { s with
            fs := fs1
            trace := s.trace ++ [.readFile s.cfgFile,
              .mkdirAll (filepathDir s.cfgFile) O_RDWR] }) := by
      simp [writeDefaultConfig, State.emit, hm]
    rw [hw]
    refine ⟨⟨_, rfl, by simp [Err.is]⟩, by simp [FS.fileCount, hF],
      by simp [FS.fileCount, hM.1], ?_, _, rfl, ?_⟩
    · intro text h
      simp [errorsJoin, Ret.ofError] at h
    · simp [Event.isArgs, Event.isPrompt]

/-- Witness of C2 (amended): no arguments, and the directory `gsend` exists
without a configuration file. -/
theorem getInfo_config_not_found_witness :
    (∃ e, (getInfo noArgFreshWorld (startState noArgFreshWorld)).1 = .err e
        ∧ e.is .ErrConfigNotFound = true)
      ∧ (startState noArgFreshWorld).fs.fileCount = 0
      ∧ (getInfo noArgFreshWorld (startState noArgFreshWorld)).2.fs.fileCount
          = (if ((startState noArgFreshWorld).fs.MkdirAll O_RDWR).1 = none
                ∧ ((startState noArgFreshWorld).fs.MkdirAll O_RDWR).2.Create.1 = none
              then 1 else 0)
      ∧ (∀ text,
          (getInfo noArgFreshWorld (startState noArgFreshWorld)).1
            = .err (.join1 .ErrConfigNotFound) →
          noArgFreshWorld.yamlEncode {} = .ok text →
          (getInfo noArgFreshWorld (startState noArgFreshWorld)).2.fs.cfgFile
            = some (createMode 0o666 (startState noArgFreshWorld).fs.umask, text))
      ∧ ∃ evs, (getInfo noArgFreshWorld (startState noArgFreshWorld)).2.trace
            = (startState noArgFreshWorld).trace ++ evs
          ∧ ∀ e ∈ evs, e.isArgs = false ∧ e.isPrompt = false ∧ (∀ p, e ≠ .stat p)
              ∧ (∀ c, e = .encode c → c = {}) :=
  getInfo_config_not_found noArgFreshWorld (startState noArgFreshWorld)
    (by decide) (by decide)

/-- C10 (as stated, refuted).  `main` names the remote file with
`filepath.Join`, which cleans its result, so the name is not always the
destination path, a separator and the base name: a trailing separator of the
destination path is dropped, an empty destination path gives the bare base
name, and for the sources `.` and `..`, which exist on every disk, the name is
the destination directory itself or its parent. -/
theorem remoteName_not_concatenation :
    remoteName { Path := "/remote/dir/" } "a.txt" = "/remote/dir/a.txt"
      ∧ "/remote/dir/" ++ "/" ++ filepathBase "a.txt" = "/remote/dir//a.txt"
      ∧ Event.sftpCreate "/remote/dir/a.txt" ∈ (program trailingSepWorld).2.trace
      ∧ remoteName { Path := "" } "a.txt" = "a.txt"
      ∧ filepathBase "." = "."
      ∧ remoteName { Path := "/remote/dir" } "." = "/remote/dir"
      ∧ Event.sftpCreate "/remote/dir" ∈ (program dotSrcWorld).2.trace
      ∧ filepathBase ".." = ".."
      ∧ remoteName { Path := "/remote/dir" } ".." = "/remote" := by
  decide

/-- C10 (amended): the remote file `main` creates is at
`filepath.Join(p, filepath.Base(s))`.  When the destination path `p` is in
cleaned form and is neither `/` nor `.`, and the base name of the source is an
ordinary name (not `.`, `..` or `/`), that is `p` followed by `/` followed by
the base name, and the base name holds no separator, so the file lies directly
under `p`. -/
theorem remoteName_clean_dest (dest : Location) (src : String)
    (hclean : filepathClean dest.Path = dest.Path)
    (hroot : dest.Path ≠ "/") (hdot : dest.Path ≠ ".")
    (hb1 : filepathBase src ≠ ".") (hb2 : filepathBase src ≠ "..")
    (hb3 : filepathBase src ≠ "/") :
    remoteName dest src = dest.Path ++ "/" ++ filepathBase src
      ∧ '/' ∉ (filepathBase src).data := by
  have hc : cleanChars dest.Path.data = dest.Path.data := congrArg String.data hclean
  have hord := baseChars_ordinary src.data (data_ne_of_ne (filepathBase src) ['/'] hb3)
  have hne : dest.Path ≠ "" := by
    intro h
    rw [h] at hclean
    exact absurd hclean (by decide)
  refine ⟨?_, hord.1⟩
  have happ := cleanChars_append_elem dest.Path.data (baseChars src.data) hc
    (data_ne_of_ne _ _ hroot) (data_ne_of_ne _ _ hdot) hord.1 hord.2
    (data_ne_of_ne (filepathBase src) ['.'] hb1)
    (data_ne_of_ne (filepathBase src) ['.', '.'] hb2)
  apply String.ext
  simp only [remoteName, filepathJoin, hne, ne_eq, not_false_eq_true, if_true, filepathClean,
    stringsJoinSep, String.data_append]
  simpa [filepathBase] using happ

/-- Witness of C10 (amended): `docs/a.txt` sent to `/remote/dir`. -/
theorem remoteName_clean_dest_witness :
    remoteName { Path := "/remote/dir", Host := "h", Port := 2222 } "docs/a.txt"
        = "/remote/dir" ++ "/" ++ filepathBase "docs/a.txt"
      ∧ '/' ∉ (filepathBase "docs/a.txt").data :=
  remoteName_clean_dest { Path := "/remote/dir", Host := "h", Port := 2222 } "docs/a.txt"
    (by decide) (by decide) (by decide) (by decide) (by decide) (by decide)

end Gsend
